import Mathlib

/-!
Verification of the canary rollout executor
(`pkg/controllers/rolloutrun/executor/canary.go`).

The Go source is shallowly embedded: pure control flow becomes Lean
functions; the external collaborators (workload registry, canary
capability, traffic manager, webhook executor) become oracle records whose
per-call results are fields of the execution context; side effects that the
claims observe (which external calls were made, with which arguments; the
mutation of the pod-template metadata patch; pausing the rollout-run) are
made explicit as an event trace, a small heap of `MetadataPatch` values,
and a pause counter.
-/

/-- `controllerutil.OperationResult`: the outcome of a create-or-update or
traffic call.  The Go code only ever compares against
`OperationResultNone`. -/
inductive OperationResult
  | opNone
  | created
  | updated
  | updatedStatus
  deriving DecidableEq, Repr

/-- The three requeue intents returned by step handlers
(`retryStop`, `retryDefault`, `retryImmediately` in the executor package;
their numeric `time.Duration` values are irrelevant to the claims, only
their identity). -/
inductive Retry
  | stop
  | default
  | immediately
  deriving DecidableEq, Repr

/-- `rolloutv1alpha1.CodeReasonMessage`: the structured error surfaced to
rollout-run status. -/
structure CodeReasonMessage where
  code : String
  reason : String
  message : String
  deriving DecidableEq, Repr

/-- `newDoCanaryError` from canary.go. -/
def newDoCanaryError (reason msg : String) : CodeReasonMessage :=
  { code := "DoCanaryError", reason := reason, message := msg }

/-- Modelled from the spec: the reason constant named in canary.go; its
definition lives in the executor package outside src/. Its exact string
value is irrelevant, only its identity. -/
def ReasonWorkloadInterfaceNotExist : String := "WorkloadInterfaceNotExist"

/-- Modelled from the spec: the fixed canary-identifying label key
(`rolloutapi.LabelCanary`, defined outside src/). -/
def LabelCanary : String := "rollout.kusionstack.io/canary"

/-- Modelled from the spec: the fixed pod-revision label key
(`rolloutapi.LabelPodRevision`, defined outside src/). -/
def LabelPodRevision : String := "rollout.kusionstack.io/pod-revision"

/-- A Go `map[string]string`, as an association list without duplicate
keys; `mapSet` is Go's `m[k] = v` (overwrite the binding of `k`, or append
one). -/
def mapSet (m : List (String × String)) (k v : String) : List (String × String) :=
  match m with
  | [] => [(k, v)]
  | p :: rest => if p.1 = k then (k, v) :: rest else p :: mapSet rest k v

/-- Go map lookup `m[k]`. -/
def mapGet (m : List (String × String)) (k : String) : Option String :=
  (m.find? (fun p => p.1 = k)).map (fun p => p.2)

/-- `rolloutv1alpha1.MetadataPatch`: `Labels` is `nil` (`none`) or a map. -/
structure MetadataPatch where
  labels : Option (List (String × String)) := none
  annotations : Option (List (String × String)) := none
  deriving DecidableEq, Repr

/-- The heap of `MetadataPatch` objects; a Go `*MetadataPatch` is
`Option Nat` (an index, or `nil`). -/
abbrev Heap : Type := List MetadataPatch

def heapGet (h : Heap) (a : Nat) : Option MetadataPatch := List.get? h a

def heapSet (h : Heap) (a : Nat) (p : MetadataPatch) : Heap := List.set h a p

def heapLen (h : Heap) : Nat := List.length h

/-- Writes the two builtin canary labels into the patch stored at `a`
(Go: `patch.Labels[LabelCanary] = "true"; patch.Labels[LabelPodRevision] =
"canary"`, allocating the label map when `Labels` is `nil`).  A dangling
address leaves the heap unchanged; Go's type safety rules this case out. -/
def setBuiltinLabels (h : Heap) (a : Nat) : Heap × Nat :=
  match heapGet h a with
  | none => (h, a)
  | some patch =>
    let lbls := patch.labels.getD []
    let lbls := mapSet (mapSet lbls LabelCanary "true") LabelPodRevision "canary"
    (heapSet h a { patch with labels := some lbls }, a)

/-- `appendBuiltinPodTemplateMetadataPatch` from canary.go: a `nil` patch
is replaced by a freshly allocated empty one; the (possibly fresh) patch is
then mutated in place to carry the builtin canary labels, and the same
pointer is returned. -/
def appendBuiltinPodTemplateMetadataPatch (h : Heap) (p : Option Nat) : Heap × Nat :=
  match p with
  | none => setBuiltinLabels (h ++ [({} : MetadataPatch)]) (heapLen h)
  | some a => setBuiltinLabels h a

/-- One canary target (`RolloutRunStepTarget`): cluster, workload name,
desired replicas (the replica value is passed through opaquely). -/
structure CanaryTarget where
  cluster : String
  name : String
  replicas : Nat
  deriving DecidableEq, Repr

/-- Rendering of `item.CrossClusterObjectNameReference` in error
messages. -/
def refString (t : CanaryTarget) : String := t.cluster ++ "/" ++ t.name

/-- The canary status snapshot returned by `GetCanaryInfo`, together with
the `CheckPartitionReady` predicate of that workload (an oracle: the
embedding does not re-implement per-workload readiness). -/
structure CanaryInfo where
  clusterName : String
  name : String
  statusReplicas : Nat
  updatedAvailableReplicas : Nat
  checkPartitionReady : Nat → Bool

/-- The per-target canary capability, as the oracle of what each of its
methods returns during this reconcile tick (each is called at most once
per target per handler).  `Except String α` is Go's `(α, error)` with a
non-nil error. -/
structure CanaryStrategy where
  initializeRes : Option String
  createOrUpdateRes : Except String OperationResult
  info : CanaryInfo
  deleteRes : Option String

/-- A workload handle from the registry; `CanaryStrategy()` may fail. -/
structure WorkloadInterface where
  canaryStrategy : Except String CanaryStrategy

/-- The traffic manager oracle: what each routing call returns this tick. -/
structure TrafficManager where
  forkStable : Except String OperationResult
  forkCanary : Except String OperationResult
  revertStable : Except String OperationResult
  revertCanary : Except String OperationResult
  checkReady : Bool

/-- The four traffic operations `modifyTraffic` is invoked with (string
literals in Go; only these four occur). -/
inductive TrafficOp
  | forkStable
  | forkCanary
  | revertStable
  | revertCanary
  deriving DecidableEq, Repr

/-- The two webhook hook types passed to the webhook executor. -/
inductive HookType
  | preCanaryStepHook
  | postCanaryStepHook
  deriving DecidableEq, Repr

/-- A step handler result `(done bool, time.Duration, error)`. -/
structure StepResult where
  done : Bool
  retry : Retry
  err : Option CodeReasonMessage
  deriving DecidableEq, Repr

/-- `rolloutRun.Spec.Canary`: targets, optional traffic spec (only its
presence matters to canary.go), and the optional pod-template metadata
patch (a pointer into the heap). -/
structure CanarySpec where
  targets : List CanaryTarget
  traffic : Option Unit
  podTemplateMetadataPatch : Option Nat

/-- The execution context: rollout names, the rollout-run canary spec, the
workload registry, the bound traffic manager, the heap holding patch
objects, the `inCanary` guard, the webhook executor oracle (a field of the
canary executor in Go, carried here in the context), and the pause
counter incremented by `ctx.Pause()`. -/
structure ExecutorContext where
  rolloutName : String
  rolloutRunName : String
  canary : CanarySpec
  workloads : String → String → Option WorkloadInterface
  trafficManager : TrafficManager
  heap : Heap
  inCanary : Bool
  webhook : HookType → StepResult
  pauseCount : Nat

/-- `ctx.Pause()`. -/
def ctxPause (ctx : ExecutorContext) : ExecutorContext :=
  { ctx with pauseCount := ctx.pauseCount + 1 }

/-- Observable external calls a handler makes, in order. -/
inductive Event
  | trafficCall (op : TrafficOp)
  | checkReadyCall
  | initializeCall (cluster name : String)
  | createOrUpdateCall (cluster name : String) (patch : MetadataPatch)
  | getCanaryInfoCall (cluster name : String)
  | deleteCall (cluster name : String)
  deriving DecidableEq, Repr

/-- Whether an event is an `Initialize` call. -/
def Event.isInitialize : Event → Bool
  | .initializeCall _ _ => true
  | _ => false

/-- Whether an event is a `CreateOrUpdate` call. -/
def Event.isCreateOrUpdate : Event → Bool
  | .createOrUpdateCall _ _ _ => true
  | _ => false

/-- Whether an event is a `Delete` call. -/
def Event.isDelete : Event → Bool
  | .deleteCall _ _ => true
  | _ => false

/-- Whether an event is a `GetCanaryInfo` call (the readiness check). -/
def Event.isGetCanaryInfo : Event → Bool
  | .getCanaryInfoCall _ _ => true
  | _ => false

/-- Whether an event is the given traffic call. -/
def Event.isTrafficCall (op : TrafficOp) : Event → Bool
  | .trafficCall o => o = op
  | _ => false

/-- Whether an event touches a workload (initialize / create-or-update /
delete on a canary capability). -/
def Event.touchesWorkload (e : Event) : Bool :=
  e.isInitialize || e.isCreateOrUpdate || e.isDelete

/-- Dispatch of the `switch op` in `modifyTraffic` to the corresponding
traffic-manager method. -/
def trafficCallResult (tm : TrafficManager) : TrafficOp → Except String OperationResult
  | .forkStable => tm.forkStable
  | .forkCanary => tm.forkCanary
  | .revertStable => tm.revertStable
  | .revertCanary => tm.revertCanary

/-- `canaryExecutor.modifyTraffic` from canary.go.  When the rollout-run
has no traffic spec, no traffic-manager method is called (`opResult` stays
`OperationResultNone` and the readiness check is guarded by the same nil
test), so the step is immediately done.  Otherwise: a failed call or a
non-no-op result means not-done with default delay; then readiness is
awaited. -/
def modifyTraffic (ctx : ExecutorContext) (op : TrafficOp) : (Bool × Retry) × List Event :=
  match ctx.canary.traffic with
  | none => ((true, .immediately), [])
  | some _ =>
    match trafficCallResult ctx.trafficManager op with
    | .error _ => ((false, .default), [.trafficCall op])
    | .ok res =>
      if res != OperationResult.opNone then ((false, .default), [.trafficCall op])
      else if ctx.trafficManager.checkReady then
        ((true, .immediately), [.trafficCall op, .checkReadyCall])
      else ((false, .default), [.trafficCall op, .checkReadyCall])

/-- The loop body of `doInit`: resolve each target's workload handle,
obtain its canary strategy and call `Initialize`, failing fast with a
structured error. -/
def doInitLoop (ctx : ExecutorContext) : List CanaryTarget → StepResult × List Event
  | [] => (⟨true, .default, none⟩, [])
  | item :: rest =>
    match ctx.workloads item.cluster item.name with
    | none =>
      (⟨false, .stop, some (newDoCanaryError ReasonWorkloadInterfaceNotExist
        ("the workload (" ++ refString item ++ ") does not exists"))⟩, [])
    | some wi =>
      match wi.canaryStrategy with
      | .error e =>
        (⟨false, .stop, some (newDoCanaryError "InternalError"
          ("failed to get canary strategy, err: " ++ e))⟩, [])
      | .ok cs =>
        match cs.initializeRes with
        | some e =>
          (⟨false, .stop, some (newDoCanaryError "InitializeFailed"
            ("failed to initialize canary strategy, err: " ++ e))⟩,
           [.initializeCall item.cluster item.name])
        | none =>
          let r := doInitLoop ctx rest
          (r.1, .initializeCall item.cluster item.name :: r.2)

/-- `canaryExecutor.doInit` from canary.go. -/
def doInit (ctx : ExecutorContext) : StepResult × List Event :=
  doInitLoop ctx ctx.canary.targets

/-- `canaryExecutor.doPreStepHook`: delegates to the webhook executor with
the pre-canary phase marker. -/
def doPreStepHook (ctx : ExecutorContext) : StepResult :=
  ctx.webhook .preCanaryStepHook

/-- `canaryExecutor.doPostStepHook`: delegates to the webhook executor
with the post-canary phase marker and, when the webhook reports done,
calls `ctx.Pause()`; the webhook result is returned unchanged. -/
def doPostStepHook (ctx : ExecutorContext) : StepResult × ExecutorContext :=
  let r := ctx.webhook .postCanaryStepHook
  if r.done then (r, ctxPause ctx) else (r, ctx)

/-- Step 2.a of `doCanary`: for each target, resolve the workload, obtain
the canary strategy and call `CreateOrUpdate(replicas, patch)`; collect
whether any call returned a non-no-op result, and the strategies (Go's
`canaryWorkloads`) for the later readiness check.  `Except` carries the
fail-fast structured error together with the events up to the failure. -/
def doCanaryLoop (ctx : ExecutorContext) (patch : MetadataPatch) :
    List CanaryTarget →
    Except (StepResult × List Event) (Bool × List CanaryStrategy × List Event)
  | [] => .ok (false, [], [])
  | item :: rest =>
    match ctx.workloads item.cluster item.name with
    | none =>
      .error (⟨false, .stop, some (newDoCanaryError ReasonWorkloadInterfaceNotExist
        ("the workload (" ++ refString item ++ ") does not exists"))⟩, [])
    | some wi =>
      match wi.canaryStrategy with
      | .error e =>
        .error (⟨false, .stop, some (newDoCanaryError "InternalError"
          ("failed to get canary strategy, err: " ++ e))⟩, [])
      | .ok cs =>
        match cs.createOrUpdateRes with
        | .error e =>
          .error (⟨false, .stop, some (newDoCanaryError "CreateOrUpdateFailed"
            ("failed to ensure canary resource for workload(" ++ refString item
              ++ "), err: " ++ e))⟩,
            [.createOrUpdateCall item.cluster item.name patch])
        | .ok res =>
          match doCanaryLoop ctx patch rest with
          | .error (r, tr) =>
            .error (r, .createOrUpdateCall item.cluster item.name patch :: tr)
          | .ok (ch, css, tr) =>
            .ok ((res != OperationResult.opNone) || ch, cs :: css,
              .createOrUpdateCall item.cluster item.name patch :: tr)

/-- Step 2.b of `doCanary`: for each collected strategy, fetch
`GetCanaryInfo` and test `CheckPartitionReady(info.Status.Replicas)`,
stopping at the first target that is not ready. -/
def checkReadyLoop : List CanaryStrategy → Bool × List Event
  | [] => (true, [])
  | cs :: rest =>
    if cs.info.checkPartitionReady cs.info.statusReplicas then
      let r := checkReadyLoop rest
      (r.1, .getCanaryInfoCall cs.info.clusterName cs.info.name :: r.2)
    else (false, [.getCanaryInfoCall cs.info.clusterName cs.info.name])

/-- The heap and address after `doCanary`'s
`appendBuiltinPodTemplateMetadataPatch(rolloutRun.Spec.Canary.PodTemplateMetadataPatch)`. -/
def canaryHeapAddr (ctx : ExecutorContext) : Heap × Nat :=
  appendBuiltinPodTemplateMetadataPatch ctx.heap ctx.canary.podTemplateMetadataPatch

/-- The patch value passed (by pointer) to every `CreateOrUpdate` call in
`doCanary`. -/
def canaryPatch (ctx : ExecutorContext) : MetadataPatch :=
  (heapGet (canaryHeapAddr ctx).1 (canaryHeapAddr ctx).2).getD {}

/-- `canaryExecutor.doCanary` from canary.go: fork stable traffic;
create/update the canary resources with the augmented patch; if any target
changed, report still-converging; wait for partition readiness; finally
fork canary traffic.  Returns the handler result, the event trace and the
heap (mutated by the patch augmentation). -/
def doCanary (ctx : ExecutorContext) : StepResult × List Event × Heap :=
  let prep := modifyTraffic ctx .forkStable
  if prep.1.1 then
    let h1 := (canaryHeapAddr ctx).1
    match doCanaryLoop ctx (canaryPatch ctx) ctx.canary.targets with
    | .error (r, tr2) => (r, prep.2 ++ tr2, h1)
    | .ok (changed, css, tr2) =>
      if changed then (⟨false, .default, none⟩, prep.2 ++ tr2, h1)
      else
        let ready := checkReadyLoop css
        if ready.1 then
          let fork := modifyTraffic ctx .forkCanary
          if fork.1.1 then
            (⟨true, .immediately, none⟩, prep.2 ++ tr2 ++ ready.2 ++ fork.2, h1)
          else (⟨false, fork.1.2, none⟩, prep.2 ++ tr2 ++ ready.2 ++ fork.2, h1)
        else (⟨false, .default, none⟩, prep.2 ++ tr2 ++ ready.2, h1)
  else (⟨false, prep.1.2, none⟩, prep.2, ctx.heap)

/-- The loop body of `doRecycle`: resolve each target's workload, obtain
the canary strategy and call `Delete`, failing fast with a structured
error. -/
def doRecycleLoop (ctx : ExecutorContext) :
    List CanaryTarget → Except (StepResult × List Event) (List Event)
  | [] => .ok []
  | item :: rest =>
    match ctx.workloads item.cluster item.name with
    | none =>
      .error (⟨false, .stop, some (newDoCanaryError ReasonWorkloadInterfaceNotExist
        ("the workload (" ++ refString item ++ ") does not exists"))⟩, [])
    | some wi =>
      match wi.canaryStrategy with
      | .error e =>
        .error (⟨false, .stop, some (newDoCanaryError "InternalError"
          ("failed to get canary strategy, err: " ++ e))⟩, [])
      | .ok cs =>
        match cs.deleteRes with
        | some e =>
          .error (⟨false, .stop, some (newDoCanaryError "DeleteFailed"
            ("failed to delete canary resource for workload(" ++ refString item
              ++ "), err: " ++ e))⟩,
            [.deleteCall item.cluster item.name])
        | none =>
          match doRecycleLoop ctx rest with
          | .error (r, tr) => .error (r, .deleteCall item.cluster item.name :: tr)
          | .ok tr => .ok (.deleteCall item.cluster item.name :: tr)

/-- `canaryExecutor.doRecycle` from canary.go: revert canary traffic;
delete every target's canary resources; revert stable traffic. -/
def doRecycle (ctx : ExecutorContext) : StepResult × List Event :=
  let rc := modifyTraffic ctx .revertCanary
  if rc.1.1 then
    match doRecycleLoop ctx ctx.canary.targets with
    | .error (r, tr2) => (r, rc.2 ++ tr2)
    | .ok tr2 =>
      let rs := modifyTraffic ctx .revertStable
      if rs.1.1 then (⟨true, .default, none⟩, rc.2 ++ tr2 ++ rs.2)
      else (⟨false, rs.1.2, none⟩, rc.2 ++ tr2 ++ rs.2)
  else (⟨false, rc.1.2, none⟩, rc.2)


/-! ## The step state machine

The generic engine (`stepStateMachine` in the executor package) is not
among the repository files here; per the spec it registers transitions
`(fromState, toState, handler)` and `do` invokes the handler of the
current state, advancing to `toState` when the handler is done, chaining
through "immediate" results within one call, bounded by a fuel (the spec
caps the loop by the number of registered states). -/

/-- Step state string constants (`StepPending` etc.; the terminal
"empty next state" is `""`). -/
def StepPending : String := "Pending"

def StepPreCanaryStepHook : String := "PreCanaryStepHook"

def StepRunning : String := "Running"

def StepPostCanaryStepHook : String := "PostCanaryStepHook"

def StepResourceRecycling : String := "ResourceRecycling"

def StepSucceeded : String := "Succeeded"

/-- One registered transition. -/
structure StepTransition where
  current : String
  next : String
  handler : ExecutorContext → StepResult

/-- Modelled from the spec: the generic step state machine
(`stepStateMachine`, defined in the executor package outside src/). -/
structure StepStateMachine where
  transitions : List StepTransition

/-- `newStepStateMachine`. -/
def newStepStateMachine : StepStateMachine := ⟨[]⟩

/-- Modelled from the spec: `stepStateMachine.add` registers a transition
`(fromState, toState, handler)`. -/
def StepStateMachine.add (m : StepStateMachine) (cur next : String)
    (h : ExecutorContext → StepResult) : StepStateMachine :=
  ⟨m.transitions ++ [⟨cur, next, h⟩]⟩

/-- The transition registered for a state. -/
def StepStateMachine.findTransition (m : StepStateMachine) (s : String) :
    Option StepTransition :=
  m.transitions.find? (fun t => t.current = s)

/-- Modelled from the spec: `stepStateMachine.do`.  Looks up the handler
of the current state (none registered is a fail-fast programmer error);
invokes it; a structured error stops the machine with the state unchanged;
on done it advances to `toState` (an empty `toState` is terminal and
leaves the persisted state as it is), chaining into the next state's
handler within the same call when the requeue intent is immediate; on
not-done it returns with the state unchanged.  The fuel bounds the
chaining loop. -/
def StepStateMachine.run (m : StepStateMachine) (ctx : ExecutorContext) :
    Nat → String → (Bool × Retry × Option CodeReasonMessage) × String
  | 0, s => ((false, .default, none), s)
  | fuel + 1, s =>
    match m.findTransition s with
    | none =>
      ((false, .stop, some (newDoCanaryError "InternalError"
        ("no transition registered for state " ++ s))), s)
    | some t =>
      let r := t.handler ctx
      match r.err with
      | some e => ((r.done, r.retry, some e), s)
      | none =>
        if r.done then
          if t.next = "" then ((true, r.retry, none), s)
          else if r.retry = .immediately then m.run ctx fuel t.next
          else ((true, r.retry, none), t.next)
        else ((false, r.retry, none), s)

/-- Modelled from the spec: `skipStep`, the no-op handler of the terminal
state, always done with immediate requeue and empty next state. -/
def skipStep (_ : ExecutorContext) : StepResult :=
  ⟨true, .immediately, none⟩

/-- `doInit` as a plain step handler (the trace projected away). -/
def doInitH (ctx : ExecutorContext) : StepResult := (doInit ctx).1

/-- `doCanary` as a plain step handler. -/
def doCanaryH (ctx : ExecutorContext) : StepResult := (doCanary ctx).1

/-- `doPostStepHook` as a plain step handler. -/
def doPostStepHookH (ctx : ExecutorContext) : StepResult := (doPostStepHook ctx).1

/-- `doRecycle` as a plain step handler. -/
def doRecycleH (ctx : ExecutorContext) : StepResult := (doRecycle ctx).1

/-- `newCanaryExecutor` from canary.go: the fixed wiring of the canary
state machine. -/
def newCanaryExecutor : StepStateMachine :=
  (((((newStepStateMachine.add StepPending StepPreCanaryStepHook doInitH).add
    StepPreCanaryStepHook StepRunning doPreStepHook).add
    StepRunning StepPostCanaryStepHook doCanaryH).add
    StepPostCanaryStepHook StepResourceRecycling doPostStepHookH).add
    StepResourceRecycling StepSucceeded doRecycleH).add
    StepSucceeded "" skipStep

/-- `canaryExecutor.Do` from canary.go: if the rollout-run is not in a
canary-requiring phase, return `(true, Requeue-immediately, nil)` without
binding the traffic manager or running the state machine; otherwise bind
the traffic manager (the Boolean in the result records whether
`TrafficManager.With` was called) and run the machine from the persisted
state. -/
def canaryExecutorDo (ctx : ExecutorContext) (fuel : Nat) (state : String) :
    ((Bool × Retry × Option CodeReasonMessage) × String) × Bool :=
  if ctx.inCanary then (newCanaryExecutor.run ctx fuel state, true)
  else (((true, .immediately, none), state), false)

/-- Position of a state along the canary chain (unknown states sort
last). -/
def stateIdx (s : String) : Nat :=
  if s = StepPending then 0
  else if s = StepPreCanaryStepHook then 1
  else if s = StepRunning then 2
  else if s = StepPostCanaryStepHook then 3
  else if s = StepResourceRecycling then 4
  else if s = StepSucceeded then 5
  else 6

/-! ## Derived observations and concrete fixtures -/

/-- Whether a target would pass `doInit`'s body: its workload resolves,
its canary strategy is obtained and `Initialize` succeeds. -/
def targetInitOk (ctx : ExecutorContext) (t : CanaryTarget) : Bool :=
  match ctx.workloads t.cluster t.name with
  | none => false
  | some wi =>
    match wi.canaryStrategy with
    | .error _ => false
    | .ok cs => cs.initializeRes.isNone

/-- The `changed` flag computed by `doCanary`'s create-or-update loop
(`none` when the loop failed fast). -/
def canaryLoopChanged
    (r : Except (StepResult × List Event) (Bool × List CanaryStrategy × List Event)) :
    Option Bool :=
  match r with
  | .error _ => none
  | .ok (b, _, _) => some b

/-- The partition-readiness verdict over the strategies collected by
`doCanary`'s loop (`none` when the loop failed fast). -/
def canaryLoopReady
    (r : Except (StepResult × List Event) (Bool × List CanaryStrategy × List Event)) :
    Option Bool :=
  match r with
  | .error _ => none
  | .ok (_, css, _) => some (checkReadyLoop css).1

/-- The events of `doCanary`'s create-or-update loop, in both outcomes. -/
def canaryLoopEvents
    (r : Except (StepResult × List Event) (Bool × List CanaryStrategy × List Event)) :
    List Event :=
  match r with
  | .error (_, tr) => tr
  | .ok (_, _, tr) => tr

/-- The pod-template patch pointer of a context is `nil` or a live heap
address (guaranteed by Go's type safety). -/
def validPatchPtr (ctx : ExecutorContext) : Bool :=
  match ctx.canary.podTemplateMetadataPatch with
  | none => true
  | some a => a < heapLen ctx.heap

/-- A traffic manager whose calls all succeed as no-ops with routing
ready. -/
def tmAllNone : TrafficManager :=
  { forkStable := .ok .opNone, forkCanary := .ok .opNone,
    revertStable := .ok .opNone, revertCanary := .ok .opNone, checkReady := true }

/-- Canary info of a ready single-replica workload. -/
def infoReady : CanaryInfo :=
  { clusterName := "c1", name := "w1", statusReplicas := 1,
    updatedAvailableReplicas := 1, checkPartitionReady := fun _ => true }

/-- A well-behaved strategy: initialize and delete succeed, create-or-update
is a no-op and the partition is ready. -/
def csQuiet : CanaryStrategy :=
  { initializeRes := none, createOrUpdateRes := .ok .opNone,
    info := infoReady, deleteRes := none }

/-- A strategy whose `CreateOrUpdate` reports `created`. -/
def csDidCreate : CanaryStrategy :=
  { initializeRes := none, createOrUpdateRes := .ok .created,
    info := infoReady, deleteRes := none }

/-- A concrete baseline context: one target, no traffic spec, nil patch,
quiet workloads, webhook done. -/
def ctxBase : ExecutorContext :=
  { rolloutName := "r", rolloutRunName := "rr",
    canary := { targets := [⟨"c1", "w1", 1⟩], traffic := none,
                podTemplateMetadataPatch := none },
    workloads := fun _ _ => some ⟨.ok csQuiet⟩,
    trafficManager := tmAllNone, heap := [], inCanary := true,
    webhook := fun _ => ⟨true, .default, none⟩, pauseCount := 0 }

/-- `ctxBase` outside the canary phase. -/
def ctxNotInCanary : ExecutorContext :=
  { ctxBase with
    inCanary := false }

/-- `ctxBase` with a webhook that reports done together with an error. -/
def ctxHookErr : ExecutorContext :=
  { ctxBase with
    webhook := fun _ => ⟨true, .default, some (newDoCanaryError "HookFailed" "boom")⟩ }

/-- An event either is not a `CreateOrUpdate` call or carries the given
patch as its argument. -/
def eventPatchOk (patch : MetadataPatch) : Event → Bool
  | .createOrUpdateCall _ _ p => p == patch
  | _ => true

/-- Two targets on the same cluster, no traffic spec, nil patch. -/
def specTwoTargets : CanarySpec :=
  { targets := [⟨"c1", "w1", 1⟩, ⟨"c1", "w2", 1⟩], traffic := none,
    podTemplateMetadataPatch := none }

/-- Two targets with a traffic spec. -/
def specTwoTargetsTraffic : CanarySpec :=
  { targets := [⟨"c1", "w1", 1⟩, ⟨"c1", "w2", 1⟩], traffic := some (),
    podTemplateMetadataPatch := none }

/-- Both targets' `CreateOrUpdate` report `created` (spec Example 1,
first call). -/
def ctxFirstCall : ExecutorContext :=
  { ctxBase with
    canary := specTwoTargets,
    workloads := fun _ _ => some ⟨.ok csDidCreate⟩ }

/-- Both targets now report no-op and ready (spec Example 1, second
call). -/
def ctxSecondCall : ExecutorContext :=
  { ctxBase with
    canary := specTwoTargets }

/-- The second target's workload lookup returns nil (spec Example 2). -/
def ctxMissingSecond : ExecutorContext :=
  { ctxBase with
    canary := specTwoTargets,
    workloads := fun _ n => if n = "w1" then some ⟨.ok csQuiet⟩ else none }

/-- `RevertCanary` reports a change, i.e. traffic still converging (spec
Example 3). -/
def ctxRevertConverging : ExecutorContext :=
  { ctxBase with
    canary := specTwoTargetsTraffic,
    trafficManager := { tmAllNone with revertCanary := .ok .updated } }

/-- `ForkStable` reports a change, i.e. the stable fork is not yet done. -/
def ctxForkConverging : ExecutorContext :=
  { ctxBase with
    canary := specTwoTargetsTraffic,
    trafficManager := { tmAllNone with forkStable := .ok .created } }

/-! ## Theorems -/

theorem mapGet_cons (p : String × String) (m : List (String × String)) (q : String) :
    mapGet (p :: m) q = if p.1 = q then some p.2 else mapGet m q := by
  by_cases h : p.1 = q <;> simp [mapGet, List.find?_cons, h]

theorem mapGet_mapSet_self (m : List (String × String)) (k v : String) :
    mapGet (mapSet m k v) k = some v := by
  induction m with
  | nil => simp [mapSet, mapGet_cons]
  | cons p rest ih =>
    by_cases h : p.1 = k
    · simp [mapSet, h, mapGet_cons]
    · simp [mapSet, h, mapGet_cons, ih]

theorem mapGet_mapSet_other (m : List (String × String)) (k v q : String) (h : q ≠ k) :
    mapGet (mapSet m k v) q = mapGet m q := by
  have hk : k ≠ q := fun hh => h hh.symm
  induction m with
  | nil => simp [mapSet, mapGet_cons, mapGet, hk]
  | cons p rest ih =>
    by_cases hp : p.1 = k
    · rw [show mapSet (p :: rest) k v = (k, v) :: rest from by simp [mapSet, hp]]
      rw [mapGet_cons, mapGet_cons, hp]
      simp [hk]
    · rw [show mapSet (p :: rest) k v = p :: mapSet rest k v from by simp [mapSet, hp]]
      rw [mapGet_cons, mapGet_cons, ih]

/-- `modifyTraffic` returns one of exactly two handler verdicts: done with
immediate requeue, or not-done with the default delay. -/
theorem modifyTraffic_cases (ctx : ExecutorContext) (op : TrafficOp) :
    (modifyTraffic ctx op).1 = (true, Retry.immediately) ∨
    (modifyTraffic ctx op).1 = (false, Retry.default) := by
  unfold modifyTraffic
  split
  · left
    rfl
  · split
    · right
      rfl
    · split
      · right
        rfl
      · split
        · left
          rfl
        · right
          rfl

/-- `modifyTraffic` reports `retryDefault` whenever it is not done. -/
theorem modifyTraffic_not_done_default (ctx : ExecutorContext) (op : TrafficOp)
    (h : (modifyTraffic ctx op).1.1 = false) :
    (modifyTraffic ctx op).1.2 = Retry.default := by
  rcases modifyTraffic_cases ctx op with hc | hc
  · rw [hc] at h
    simp at h
  · rw [hc]

/-- C5. For every traffic-modification step: with a traffic spec present, a
failed traffic-manager call, a non-no-op result, or `CheckReady` returning
false each make `modifyTraffic` report not-done with the default delay (the
callers wrap this in a nil-error handler result), and the requeue intent of
`modifyTraffic` is never the fatal `retryStop`; with no traffic spec the
step is done with immediate requeue and an empty call trace (the traffic
manager is not called at all). -/
theorem modifyTraffic_transient_spec :
    (∀ (ctx : ExecutorContext) (op : TrafficOp), ctx.canary.traffic ≠ none →
      ((∃ e, trafficCallResult ctx.trafficManager op = .error e) ∨
       (∃ res, trafficCallResult ctx.trafficManager op = .ok res ∧
          res ≠ OperationResult.opNone) ∨
       ctx.trafficManager.checkReady = false) →
      (modifyTraffic ctx op).1 = (false, Retry.default)) ∧
    (∀ (ctx : ExecutorContext) (op : TrafficOp),
      (modifyTraffic ctx op).1.2 ≠ Retry.stop) ∧
    (∀ (ctx : ExecutorContext) (op : TrafficOp), ctx.canary.traffic = none →
      modifyTraffic ctx op = ((true, Retry.immediately), [])) := by
  refine ⟨?_, ?_, ?_⟩
  · intro ctx op htr hcause
    unfold modifyTraffic
    cases htraffic : ctx.canary.traffic with
    | none => exact absurd htraffic htr
    | some u =>
      cases hc : trafficCallResult ctx.trafficManager op with
      | error e => simp
      | ok res =>
        rcases hcause with ⟨e, he⟩ | ⟨r2, hr2, hne⟩ | hready
        · rw [hc] at he
          cases he
        · rw [hc] at hr2
          injection hr2 with h2
          subst h2
          simp [hne]
        · by_cases hres : res = OperationResult.opNone
          · simp [hres, hready]
          · simp [hres]
  · intro ctx op
    unfold modifyTraffic
    split
    · simp
    · split
      · simp
      · split
        · simp
        · split <;> simp
  · intro ctx op htraffic
    unfold modifyTraffic
    rw [htraffic]

/-- C8. `doPostStepHook` returns the webhook executor's result unchanged;
when the webhook reports done it calls `ctx.Pause()` exactly once (the
pause counter rises by exactly one), and when the webhook reports not-done
the context — in particular the pause signal — is untouched. -/
theorem doPostStepHook_pause_exactly_once :
    ∀ ctx : ExecutorContext,
      (doPostStepHook ctx).1 = ctx.webhook HookType.postCanaryStepHook ∧
      (doPostStepHook ctx).2.pauseCount =
        ctx.pauseCount +
          (if (ctx.webhook HookType.postCanaryStepHook).done then 1 else 0) ∧
      ((ctx.webhook HookType.postCanaryStepHook).done = false →
        (doPostStepHook ctx).2 = ctx) := by
  intro ctx
  unfold doPostStepHook
  by_cases h : (ctx.webhook HookType.postCanaryStepHook).done <;>
    simp [h, ctxPause]

/-- C9. The pause decision of `doPostStepHook` depends only on the
webhook's done flag: when the webhook reports done together with a non-nil
error, the pause signal is still set (the counter rises by one) and the
error is surfaced unchanged. -/
theorem doPostStepHook_pause_despite_error (ctx : ExecutorContext)
    (e : CodeReasonMessage)
    (hdone : (ctx.webhook HookType.postCanaryStepHook).done = true)
    (herr : (ctx.webhook HookType.postCanaryStepHook).err = some e) :
    (doPostStepHook ctx).2.pauseCount = ctx.pauseCount + 1 ∧
    (doPostStepHook ctx).1.err = some e := by
  unfold doPostStepHook
  simp [hdone, ctxPause, herr]

theorem doPostStepHook_pause_despite_error_witness :
    (doPostStepHook ctxHookErr).2.pauseCount = ctxHookErr.pauseCount + 1 ∧
    (doPostStepHook ctxHookErr).1.err =
      some (newDoCanaryError "HookFailed" "boom") :=
  doPostStepHook_pause_despite_error ctxHookErr
    (newDoCanaryError "HookFailed" "boom") (by decide) (by decide)

/-- C6. When the rollout-run is not in a canary-requiring phase,
`canaryExecutor.Do` returns `(done, Requeue-immediately, nil)` as a
pass-through: the persisted step state is untouched, no step handler is
run and the traffic manager is not bound (witnessed by the `false` binding
flag). -/
theorem canaryExecutorDo_pass_through (ctx : ExecutorContext) (fuel : Nat)
    (state : String) (h : ctx.inCanary = false) :
    canaryExecutorDo ctx fuel state =
      (((true, Retry.immediately, none), state), false) := by
  unfold canaryExecutorDo
  simp [h]

theorem canaryExecutorDo_pass_through_witness :
    canaryExecutorDo ctxNotInCanary 5 StepRunning =
      (((true, Retry.immediately, none), StepRunning), false) :=
  canaryExecutorDo_pass_through ctxNotInCanary 5 StepRunning (by decide)

theorem doInitLoop_all_ok (ctx : ExecutorContext) (ts : List CanaryTarget)
    (h : ∀ t ∈ ts, targetInitOk ctx t = true) :
    doInitLoop ctx ts =
      (⟨true, Retry.default, none⟩,
       ts.map fun t => Event.initializeCall t.cluster t.name) := by
  induction ts with
  | nil => rfl
  | cons t rest ih =>
    have ht := h t (List.mem_cons_self t rest)
    cases hw : ctx.workloads t.cluster t.name with
    | none => simp [targetInitOk, hw] at ht
    | some wi =>
      cases hcs : wi.canaryStrategy with
      | error e => simp [targetInitOk, hw, hcs] at ht
      | ok cs =>
        cases hi : cs.initializeRes with
        | some e => simp [targetInitOk, hw, hcs, hi] at ht
        | none =>
          simp only [doInitLoop, hw, hcs, hi]
          rw [ih (fun x hx => h x (List.mem_cons_of_mem t hx))]
          simp

theorem doInitLoop_fail_fast (ctx : ExecutorContext) (pre : List CanaryTarget)
    (item : CanaryTarget) (post : List CanaryTarget)
    (hpre : ∀ t ∈ pre, targetInitOk ctx t = true)
    (hitem : ctx.workloads item.cluster item.name = none) :
    doInitLoop ctx (pre ++ item :: post) =
      (⟨false, Retry.stop, some (newDoCanaryError ReasonWorkloadInterfaceNotExist
        ("the workload (" ++ refString item ++ ") does not exists"))⟩,
       pre.map fun t => Event.initializeCall t.cluster t.name) := by
  induction pre with
  | nil =>
    simp only [List.nil_append, doInitLoop, hitem]
    simp
  | cons t rest ih =>
    have ht := hpre t (List.mem_cons_self t rest)
    cases hw : ctx.workloads t.cluster t.name with
    | none => simp [targetInitOk, hw] at ht
    | some wi =>
      cases hcs : wi.canaryStrategy with
      | error e => simp [targetInitOk, hw, hcs] at ht
      | ok cs =>
        cases hi : cs.initializeRes with
        | some e => simp [targetInitOk, hw, hcs, hi] at ht
        | none =>
          simp only [List.cons_append, doInitLoop, hw, hcs, hi, List.append_eq]
          rw [ih (fun x hx => hpre x (List.mem_cons_of_mem t hx))]
          simp

/-- C3. `doInit` fails fast: when every target before `item` in iteration
order resolves and initializes and `item`'s workload lookup returns nil,
`doInit` returns `(false, retryStop, error{code=DoCanaryError,
reason=ReasonWorkloadInterfaceNotExist})` and its call trace is exactly the
`Initialize` calls of the earlier targets — none for `item` or any later
target, and the earlier calls are not compensated.  When every target
resolves and initializes, `doInit` returns `(true, retryDefault, nil)`. -/
theorem doInit_fail_fast_spec :
    (∀ (ctx : ExecutorContext) (pre : List CanaryTarget) (item : CanaryTarget)
        (post : List CanaryTarget),
      ctx.canary.targets = pre ++ item :: post →
      (∀ t ∈ pre, targetInitOk ctx t = true) →
      ctx.workloads item.cluster item.name = none →
      doInit ctx =
        (⟨false, Retry.stop, some (newDoCanaryError ReasonWorkloadInterfaceNotExist
          ("the workload (" ++ refString item ++ ") does not exists"))⟩,
         pre.map fun t => Event.initializeCall t.cluster t.name)) ∧
    (∀ ctx : ExecutorContext,
      (∀ t ∈ ctx.canary.targets, targetInitOk ctx t = true) →
      doInit ctx =
        (⟨true, Retry.default, none⟩,
         ctx.canary.targets.map fun t => Event.initializeCall t.cluster t.name)) := by
  constructor
  · intro ctx pre item post htargets hpre hitem
    unfold doInit
    rw [htargets]
    exact doInitLoop_fail_fast ctx pre item post hpre hitem
  · intro ctx h
    unfold doInit
    exact doInitLoop_all_ok ctx ctx.canary.targets h

theorem heapGet_lt (h : Heap) (a : Nat) (p : MetadataPatch)
    (hget : heapGet h a = some p) : a < heapLen h := by
  unfold heapGet at hget
  unfold heapLen
  exact (List.get?_eq_some.mp hget).1

theorem heapGet_heapSet_self (h : Heap) (a : Nat) (p : MetadataPatch)
    (hlt : a < heapLen h) : heapGet (heapSet h a p) a = some p := by
  unfold heapGet heapSet
  unfold heapLen at hlt
  exact List.get?_set_eq_of_lt p hlt

theorem setBuiltinLabels_get (h : Heap) (a : Nat) (patch : MetadataPatch)
    (hget : heapGet h a = some patch) :
    heapGet (setBuiltinLabels h a).1 (setBuiltinLabels h a).2 =
      some { patch with labels := some (mapSet (mapSet (patch.labels.getD [])
        LabelCanary "true") LabelPodRevision "canary") } := by
  unfold setBuiltinLabels
  simp only [hget]
  exact heapGet_heapSet_self h a _ (heapGet_lt h a patch hget)

/-- The augmented patch read back at the address `doCanary` passes down
carries the two builtin canary labels, whatever the original patch was. -/
theorem canaryPatch_has_canary_labels (ctx : ExecutorContext)
    (hvalid : validPatchPtr ctx = true) :
    mapGet ((canaryPatch ctx).labels.getD []) LabelCanary = some "true" ∧
    mapGet ((canaryPatch ctx).labels.getD []) LabelPodRevision = some "canary" := by
  have hk : LabelCanary ≠ LabelPodRevision := by decide
  obtain ⟨p0, hp0⟩ : ∃ p0 : MetadataPatch,
      heapGet (canaryHeapAddr ctx).1 (canaryHeapAddr ctx).2 =
        some { p0 with labels := some (mapSet (mapSet (p0.labels.getD [])
          LabelCanary "true") LabelPodRevision "canary") } := by
    unfold canaryHeapAddr appendBuiltinPodTemplateMetadataPatch
    cases hptr : ctx.canary.podTemplateMetadataPatch with
    | none =>
      exact ⟨{}, setBuiltinLabels_get _ _ _ (List.get?_concat_length _ _)⟩
    | some a =>
      unfold validPatchPtr at hvalid
      rw [hptr] at hvalid
      have hlt : a < heapLen ctx.heap := by simpa using hvalid
      exact ⟨(ctx.heap.get ⟨a, hlt⟩),
        setBuiltinLabels_get _ _ _ (List.get?_eq_get hlt)⟩
  unfold canaryPatch
  rw [hp0]
  simp only [Option.getD_some]
  refine ⟨?_, mapGet_mapSet_self _ _ _⟩
  rw [mapGet_mapSet_other _ _ _ _ hk]
  exact mapGet_mapSet_self _ _ _

/-- `doCanary` returns the heap produced by the patch augmentation in
every branch that gets past the stable-traffic fork. -/
theorem doCanary_heap (ctx : ExecutorContext)
    (hprep : (modifyTraffic ctx TrafficOp.forkStable).1.1 = true) :
    (doCanary ctx).2.2 = (canaryHeapAddr ctx).1 := by
  unfold doCanary
  simp only [hprep, if_true]
  split
  · rfl
  · split
    · rfl
    · split
      · split
        · rfl
        · rfl
      · rfl

/-- C10. `appendBuiltinPodTemplateMetadataPatch` mutates a non-nil
spec-owned patch in place: it returns the very address it was given, and
the heap afterwards holds, at that address, the original patch with a
labels map (allocated when absent) into which the two canary label keys
were written.  Consequently, after `doCanary` runs past the stable fork,
the rollout-run spec's own patch object carries the canary labels. -/
theorem appendBuiltinPodTemplateMetadataPatch_in_place :
    (∀ (h : Heap) (a : Nat) (patch : MetadataPatch), heapGet h a = some patch →
      appendBuiltinPodTemplateMetadataPatch h (some a) =
        (heapSet h a { patch with labels := some (mapSet (mapSet
          (patch.labels.getD []) LabelCanary "true") LabelPodRevision "canary") },
         a)) ∧
    (∀ (ctx : ExecutorContext) (a : Nat) (patch : MetadataPatch),
      ctx.canary.podTemplateMetadataPatch = some a →
      heapGet ctx.heap a = some patch →
      (modifyTraffic ctx TrafficOp.forkStable).1.1 = true →
      heapGet (doCanary ctx).2.2 a =
        some { patch with labels := some (mapSet (mapSet
          (patch.labels.getD []) LabelCanary "true") LabelPodRevision "canary") }) := by
  have happend : ∀ (h : Heap) (a : Nat) (patch : MetadataPatch),
      heapGet h a = some patch →
      appendBuiltinPodTemplateMetadataPatch h (some a) =
        (heapSet h a { patch with labels := some (mapSet (mapSet
          (patch.labels.getD []) LabelCanary "true") LabelPodRevision "canary") },
         a) := by
    intro h a patch hget
    unfold appendBuiltinPodTemplateMetadataPatch setBuiltinLabels
    simp only [hget]
  refine ⟨happend, ?_⟩
  intro ctx a patch hptr hget hprep
  rw [doCanary_heap ctx hprep]
  unfold canaryHeapAddr
  rw [hptr, happend ctx.heap a patch hget]
  exact heapGet_heapSet_self _ _ _ (heapGet_lt _ _ _ hget)

theorem modifyTraffic_events_patchOk (ctx : ExecutorContext) (op : TrafficOp)
    (patch : MetadataPatch) :
    ((modifyTraffic ctx op).2.all (eventPatchOk patch)) = true := by
  unfold modifyTraffic
  split
  · rfl
  · split
    · simp [eventPatchOk]
    · split
      · simp [eventPatchOk]
      · split <;> simp [eventPatchOk]

theorem checkReadyLoop_events_patchOk (css : List CanaryStrategy)
    (patch : MetadataPatch) :
    ((checkReadyLoop css).2.all (eventPatchOk patch)) = true := by
  induction css with
  | nil => rfl
  | cons cs rest ih =>
    unfold checkReadyLoop
    split
    · simpa [eventPatchOk] using ih
    · simp [eventPatchOk]

theorem doCanaryLoop_events_patchOk (ctx : ExecutorContext)
    (patch : MetadataPatch) (ts : List CanaryTarget) :
    ((canaryLoopEvents (doCanaryLoop ctx patch ts)).all (eventPatchOk patch)) = true := by
  induction ts with
  | nil => rfl
  | cons t rest ih =>
    unfold doCanaryLoop
    cases hw : ctx.workloads t.cluster t.name with
    | none => simp [canaryLoopEvents]
    | some wi =>
      cases hcs : wi.canaryStrategy with
      | error e => simp [canaryLoopEvents, hcs]
      | ok cs =>
        cases hcu : cs.createOrUpdateRes with
        | error e => simp [canaryLoopEvents, hcs, hcu, eventPatchOk]
        | ok res =>
          cases hrec : doCanaryLoop ctx patch rest with
          | error pr =>
            rw [hrec] at ih
            cases pr with
            | mk r tr =>
              simp only [hcs, hcu, hrec, canaryLoopEvents, List.all_cons,
                eventPatchOk] at ih ⊢
              simp [ih]
          | ok triple =>
            rw [hrec] at ih
            rcases triple with ⟨ch, ⟨css, tr⟩⟩
            simp only [hcs, hcu, hrec, canaryLoopEvents, List.all_cons,
              eventPatchOk] at ih ⊢
            simp [ih]

/-- Every `CreateOrUpdate` call `doCanary` makes passes exactly the
augmented patch. -/
theorem doCanary_events_patchOk (ctx : ExecutorContext) :
    ((doCanary ctx).2.1.all (eventPatchOk (canaryPatch ctx))) = true := by
  unfold doCanary
  cases hprep : (modifyTraffic ctx TrafficOp.forkStable).1.1 with
  | false =>
    simp only [hprep, Bool.false_eq_true, if_false]
    exact modifyTraffic_events_patchOk ctx TrafficOp.forkStable (canaryPatch ctx)
  | true =>
    simp only [hprep, if_true]
    have hloop := doCanaryLoop_events_patchOk ctx (canaryPatch ctx) ctx.canary.targets
    cases hrec : doCanaryLoop ctx (canaryPatch ctx) ctx.canary.targets with
    | error pr =>
      rw [hrec] at hloop
      cases pr with
      | mk r tr =>
        simp only [canaryLoopEvents] at hloop
        simp [List.all_append, modifyTraffic_events_patchOk, hloop]
    | ok triple =>
      rw [hrec] at hloop
      rcases triple with ⟨ch, ⟨css, tr⟩⟩
      simp only [canaryLoopEvents] at hloop
      cases ch with
      | true =>
        simp [List.all_append, modifyTraffic_events_patchOk, hloop]
      | false =>
        cases hready : (checkReadyLoop css).1 with
        | false =>
          simp [hready, List.all_append, modifyTraffic_events_patchOk, hloop,
            checkReadyLoop_events_patchOk]
        | true =>
          cases hfork : (modifyTraffic ctx TrafficOp.forkCanary).1.1 with
          | false =>
            simp [hready, hfork, List.all_append, modifyTraffic_events_patchOk,
              hloop, checkReadyLoop_events_patchOk]
          | true =>
            simp [hready, hfork, List.all_append, modifyTraffic_events_patchOk,
              hloop, checkReadyLoop_events_patchOk]

/-- C7. Every metadata patch actually passed to a target's
`CreateOrUpdate` during `doCanary` — whatever patch the rollout-run spec
supplied, including none at all or one that already bound the canary keys
— carries the fixed canary label bound to "true" and the pod-revision
label bound to "canary"; the augmentation overwrites caller-supplied
values for these two keys. -/
theorem doCanary_patch_labels_mandatory (ctx : ExecutorContext) (c n : String)
    (p : MetadataPatch) (hvalid : validPatchPtr ctx = true)
    (hmem : Event.createOrUpdateCall c n p ∈ (doCanary ctx).2.1) :
    mapGet (p.labels.getD []) LabelCanary = some "true" ∧
    mapGet (p.labels.getD []) LabelPodRevision = some "canary" := by
  have hall := doCanary_events_patchOk ctx
  have hp : eventPatchOk (canaryPatch ctx) (Event.createOrUpdateCall c n p) = true :=
    List.all_eq_true.mp hall _ hmem
  have hpp : p = canaryPatch ctx := by
    simpa [eventPatchOk] using hp
  rw [hpp]
  exact canaryPatch_has_canary_labels ctx hvalid

theorem doCanary_patch_labels_mandatory_witness :
    mapGet (((canaryPatch ctxBase).labels.getD [])) LabelCanary = some "true" ∧
    mapGet (((canaryPatch ctxBase).labels.getD [])) LabelPodRevision = some "canary" :=
  doCanary_patch_labels_mandatory ctxBase "c1" "w1" (canaryPatch ctxBase)
    (by decide) (by decide)

/-- Every event `modifyTraffic` emits is the traffic call itself or the
readiness probe, so any predicate holding on those holds on the whole
trace. -/
theorem modifyTraffic_events_all (ctx : ExecutorContext) (op : TrafficOp)
    (q : Event → Bool) (h1 : q (Event.trafficCall op) = true)
    (h2 : q Event.checkReadyCall = true) :
    ((modifyTraffic ctx op).2.all q) = true := by
  unfold modifyTraffic
  split
  · rfl
  · split
    · simp [h1]
    · split
      · simp [h1]
      · split <;> simp [h1, h2]

/-- Every event of the readiness loop is a `GetCanaryInfo` call. -/
theorem checkReadyLoop_events_all (css : List CanaryStrategy) (q : Event → Bool)
    (h : ∀ c n, q (Event.getCanaryInfoCall c n) = true) :
    ((checkReadyLoop css).2.all q) = true := by
  induction css with
  | nil => rfl
  | cons cs rest ih =>
    unfold checkReadyLoop
    split
    · simp [h, ih]
    · simp [h]

/-- Every event of the create-or-update loop is a `CreateOrUpdate` call. -/
theorem doCanaryLoop_events_all (ctx : ExecutorContext) (patch : MetadataPatch)
    (ts : List CanaryTarget) (q : Event → Bool)
    (h : ∀ c n p, q (Event.createOrUpdateCall c n p) = true) :
    ((canaryLoopEvents (doCanaryLoop ctx patch ts)).all q) = true := by
  induction ts with
  | nil => rfl
  | cons t rest ih =>
    unfold doCanaryLoop
    cases hw : ctx.workloads t.cluster t.name with
    | none => simp [canaryLoopEvents]
    | some wi =>
      cases hcs : wi.canaryStrategy with
      | error e => simp [canaryLoopEvents, hcs]
      | ok cs =>
        cases hcu : cs.createOrUpdateRes with
        | error e => simp [canaryLoopEvents, hcs, hcu, h]
        | ok res =>
          cases hrec : doCanaryLoop ctx patch rest with
          | error pr =>
            rw [hrec] at ih
            cases pr with
            | mk r tr =>
              simp only [hcs, hcu, hrec, canaryLoopEvents, List.all_cons] at ih ⊢
              simp [ih, h]
          | ok triple =>
            rw [hrec] at ih
            rcases triple with ⟨ch, ⟨css, tr⟩⟩
            simp only [hcs, hcu, hrec, canaryLoopEvents, List.all_cons] at ih ⊢
            simp [ih, h]

theorem all_imp {l : List Event} {p q : Event → Bool}
    (h : l.all p = true) (himp : ∀ e, p e = true → q e = true) :
    l.all q = true := by
  rw [List.all_eq_true] at h ⊢
  exact fun e he => himp e (h e he)

/-- A fail-fast error of `doRecycle`'s delete loop is always a structured
`DoCanaryError` carried by a `(false, retryStop)` verdict, and the loop's
trace up to the failure consists of `Delete` calls only. -/
theorem doRecycleLoop_error (ctx : ExecutorContext) (ts : List CanaryTarget)
    (r : StepResult) (tr : List Event)
    (herr : doRecycleLoop ctx ts = .error (r, tr)) :
    r.done = false ∧ r.retry = Retry.stop ∧
    (∃ c, r.err = some c ∧ c.code = "DoCanaryError") ∧
    (tr.all Event.isDelete) = true := by
  induction ts generalizing r tr with
  | nil => simp [doRecycleLoop] at herr
  | cons t rest ih =>
    unfold doRecycleLoop at herr
    cases hw : ctx.workloads t.cluster t.name with
    | none =>
      simp only [hw, Except.error.injEq, Prod.mk.injEq] at herr
      obtain ⟨h1, h2⟩ := herr
      subst h1
      subst h2
      exact ⟨rfl, rfl, ⟨_, rfl, rfl⟩, rfl⟩
    | some wi =>
      cases hcs : wi.canaryStrategy with
      | error e =>
        simp only [hw, hcs, Except.error.injEq, Prod.mk.injEq] at herr
        obtain ⟨h1, h2⟩ := herr
        subst h1
        subst h2
        exact ⟨rfl, rfl, ⟨_, rfl, rfl⟩, rfl⟩
      | ok cs =>
        cases hd : cs.deleteRes with
        | some e =>
          simp only [hw, hcs, hd, Except.error.injEq, Prod.mk.injEq] at herr
          obtain ⟨h1, h2⟩ := herr
          subst h1
          subst h2
          exact ⟨rfl, rfl, ⟨_, rfl, rfl⟩, rfl⟩
        | none =>
          cases hrec : doRecycleLoop ctx rest with
          | error pr =>
            cases pr with
            | mk r0 tr0 =>
              simp only [hw, hcs, hd, hrec, Except.error.injEq, Prod.mk.injEq] at herr
              obtain ⟨h1, h2⟩ := herr
              subst h1
              subst h2
              obtain ⟨a1, a2, a3, a4⟩ := ih r0 tr0 hrec
              exact ⟨a1, a2, a3, by simp [Event.isDelete, a4]⟩
          | ok tr0 =>
            simp only [hw, hcs, hd, hrec] at herr
            exact absurd herr (by simp)

/-- A fail-fast error of `doCanary`'s create-or-update loop always
carries a not-done verdict. -/
theorem doCanaryLoop_error_done (ctx : ExecutorContext) (patch : MetadataPatch)
    (ts : List CanaryTarget) (r : StepResult) (tr : List Event)
    (herr : doCanaryLoop ctx patch ts = .error (r, tr)) : r.done = false := by
  induction ts generalizing r tr with
  | nil => simp [doCanaryLoop] at herr
  | cons t rest ih =>
    unfold doCanaryLoop at herr
    cases hw : ctx.workloads t.cluster t.name with
    | none =>
      simp only [hw, Except.error.injEq, Prod.mk.injEq] at herr
      obtain ⟨h1, h2⟩ := herr
      subst h1
      rfl
    | some wi =>
      cases hcs : wi.canaryStrategy with
      | error e =>
        simp only [hw, hcs, Except.error.injEq, Prod.mk.injEq] at herr
        obtain ⟨h1, h2⟩ := herr
        subst h1
        rfl
      | ok cs =>
        cases hcu : cs.createOrUpdateRes with
        | error e =>
          simp only [hw, hcs, hcu, Except.error.injEq, Prod.mk.injEq] at herr
          obtain ⟨h1, h2⟩ := herr
          subst h1
          rfl
        | ok res =>
          cases hrec : doCanaryLoop ctx patch rest with
          | error pr =>
            cases pr with
            | mk r0 tr0 =>
              simp only [hw, hcs, hcu, hrec, Except.error.injEq,
                Prod.mk.injEq] at herr
              obtain ⟨h1, h2⟩ := herr
              subst h1
              exact ih r0 tr0 hrec
          | ok triple =>
            rcases triple with ⟨ch, ⟨css, tr0⟩⟩
            simp only [hw, hcs, hcu, hrec] at herr
            exact absurd herr (by simp)

/-- C4. `doRecycle` runs its three phases strictly in order: while the
canary-traffic revert is not done it returns `(false, retryDefault, nil)`
with no `Delete` call in its trace; once the revert is done, a failing
delete loop (missing workload or `Delete` error) makes `doRecycle` return
that loop's `(false, retryStop, DoCanaryError)` verdict without any
stable-traffic revert call in the trace; after all deletes succeed, a
not-yet-done stable revert still gives `(false, retryDefault, nil)`; and
`doRecycle` reports done — always as `(true, retryDefault, nil)` — only
when the canary revert, every delete and the stable revert are all
complete. -/
theorem doRecycle_phase_order_spec :
    (∀ ctx : ExecutorContext,
      (modifyTraffic ctx TrafficOp.revertCanary).1.1 = false →
      (doRecycle ctx).1 = ⟨false, Retry.default, none⟩ ∧
      ((doRecycle ctx).2.all fun e => !(e.isDelete)) = true) ∧
    (∀ (ctx : ExecutorContext) (r : StepResult) (tr : List Event),
      (modifyTraffic ctx TrafficOp.revertCanary).1.1 = true →
      doRecycleLoop ctx ctx.canary.targets = .error (r, tr) →
      (doRecycle ctx).1 = r ∧ r.done = false ∧ r.retry = Retry.stop ∧
      (∃ c, r.err = some c ∧ c.code = "DoCanaryError") ∧
      ((doRecycle ctx).2.all fun e => !(e.isTrafficCall TrafficOp.revertStable)) = true) ∧
    (∀ (ctx : ExecutorContext) (tr : List Event),
      (modifyTraffic ctx TrafficOp.revertCanary).1.1 = true →
      doRecycleLoop ctx ctx.canary.targets = .ok tr →
      (modifyTraffic ctx TrafficOp.revertStable).1.1 = true →
      (doRecycle ctx).1 = ⟨true, Retry.default, none⟩) ∧
    (∀ (ctx : ExecutorContext) (tr : List Event),
      (modifyTraffic ctx TrafficOp.revertCanary).1.1 = true →
      doRecycleLoop ctx ctx.canary.targets = .ok tr →
      (modifyTraffic ctx TrafficOp.revertStable).1.1 = false →
      (doRecycle ctx).1 = ⟨false, Retry.default, none⟩) ∧
    (∀ ctx : ExecutorContext,
      (doRecycle ctx).1.done = true →
      (modifyTraffic ctx TrafficOp.revertCanary).1.1 = true ∧
      (∃ tr, doRecycleLoop ctx ctx.canary.targets = .ok tr) ∧
      (modifyTraffic ctx TrafficOp.revertStable).1.1 = true ∧
      (doRecycle ctx).1 = ⟨true, Retry.default, none⟩) := by
  refine ⟨?_, ?_, ?_, ?_, ?_⟩
  · intro ctx hrc
    have hdef := modifyTraffic_not_done_default ctx TrafficOp.revertCanary hrc
    unfold doRecycle
    simp only [hrc, Bool.false_eq_true, if_false]
    constructor
    · simp [hdef]
    · exact modifyTraffic_events_all ctx TrafficOp.revertCanary _ rfl rfl
  · intro ctx r tr hrc hloop
    obtain ⟨h1, h2, h3, h4⟩ := doRecycleLoop_error ctx ctx.canary.targets r tr hloop
    unfold doRecycle
    simp only [hrc, if_true, hloop]
    refine ⟨by trivial, h1, h2, h3, ?_⟩
    rw [List.all_append]
    apply Bool.and_eq_true_iff.mpr
    constructor
    · exact modifyTraffic_events_all ctx TrafficOp.revertCanary _ rfl rfl
    · refine all_imp h4 ?_
      intro e he
      cases e <;> simp [Event.isDelete, Event.isTrafficCall] at he ⊢
  · intro ctx tr hrc hloop hrs
    unfold doRecycle
    simp only [hrc, if_true, hloop, hrs]
  · intro ctx tr hrc hloop hrs
    have hdef := modifyTraffic_not_done_default ctx TrafficOp.revertStable hrs
    unfold doRecycle
    simp only [hrc, if_true, hloop, hrs, Bool.false_eq_true, if_false]
    simp [hdef]
  · intro ctx hdone
    cases hrc : (modifyTraffic ctx TrafficOp.revertCanary).1.1 with
    | false =>
      unfold doRecycle at hdone
      simp only [hrc, Bool.false_eq_true, if_false] at hdone
    | true =>
      cases hloop : doRecycleLoop ctx ctx.canary.targets with
      | error pr =>
        exfalso
        cases pr with
        | mk r tr =>
          obtain ⟨h1, h2, h3, h4⟩ := doRecycleLoop_error ctx ctx.canary.targets r tr hloop
          unfold doRecycle at hdone
          simp only [hrc, if_true, hloop] at hdone
          rw [h1] at hdone
          simp at hdone
      | ok tr =>
        cases hrs : (modifyTraffic ctx TrafficOp.revertStable).1.1 with
        | false =>
          unfold doRecycle at hdone
          simp only [hrc, if_true, hloop, hrs, Bool.false_eq_true, if_false] at hdone
        | true =>
          refine ⟨rfl, ⟨tr, rfl⟩, rfl, ?_⟩
          unfold doRecycle
          simp only [hrc, if_true, hloop, hrs]

/-- C1. `doCanary` is an ordered pipeline.  (1) While the stable-traffic
fork is not done it returns `(false, retryDefault, nil)` without touching
any workload (no create/update/initialize/delete and no readiness check in
the trace).  (2) Once the fork is done, if any target's `CreateOrUpdate`
was a non-no-op the result is `(false, retryDefault, nil)` with neither a
readiness check nor a canary-traffic fork in the trace.  (3) With all
targets no-ops, a failing partition-readiness check yields
`(false, retryDefault, nil)`.  (4) With everything else complete, a
canary-traffic fork that is not yet done still yields
`(false, retryDefault, nil)`.  (5) `doCanary` reports done — always as
`(true, retryImmediately, nil)` — only when the stable fork, the
create-or-update convergence, readiness and the canary fork are all
complete. -/
theorem doCanary_control_flow_spec :
    (∀ ctx : ExecutorContext,
      (modifyTraffic ctx TrafficOp.forkStable).1.1 = false →
      (doCanary ctx).1 = ⟨false, Retry.default, none⟩ ∧
      ((doCanary ctx).2.1.all fun e =>
        !(e.touchesWorkload || e.isGetCanaryInfo)) = true) ∧
    (∀ ctx : ExecutorContext,
      (modifyTraffic ctx TrafficOp.forkStable).1.1 = true →
      canaryLoopChanged (doCanaryLoop ctx (canaryPatch ctx) ctx.canary.targets) =
        some true →
      (doCanary ctx).1 = ⟨false, Retry.default, none⟩ ∧
      ((doCanary ctx).2.1.all fun e =>
        !(e.isGetCanaryInfo || e.isTrafficCall TrafficOp.forkCanary)) = true) ∧
    (∀ ctx : ExecutorContext,
      (modifyTraffic ctx TrafficOp.forkStable).1.1 = true →
      canaryLoopChanged (doCanaryLoop ctx (canaryPatch ctx) ctx.canary.targets) =
        some false →
      canaryLoopReady (doCanaryLoop ctx (canaryPatch ctx) ctx.canary.targets) =
        some false →
      (doCanary ctx).1 = ⟨false, Retry.default, none⟩) ∧
    (∀ ctx : ExecutorContext,
      (modifyTraffic ctx TrafficOp.forkStable).1.1 = true →
      canaryLoopChanged (doCanaryLoop ctx (canaryPatch ctx) ctx.canary.targets) =
        some false →
      canaryLoopReady (doCanaryLoop ctx (canaryPatch ctx) ctx.canary.targets) =
        some true →
      (modifyTraffic ctx TrafficOp.forkCanary).1.1 = true →
      (doCanary ctx).1 = ⟨true, Retry.immediately, none⟩) ∧
    (∀ ctx : ExecutorContext,
      (modifyTraffic ctx TrafficOp.forkStable).1.1 = true →
      canaryLoopChanged (doCanaryLoop ctx (canaryPatch ctx) ctx.canary.targets) =
        some false →
      canaryLoopReady (doCanaryLoop ctx (canaryPatch ctx) ctx.canary.targets) =
        some true →
      (modifyTraffic ctx TrafficOp.forkCanary).1.1 = false →
      (doCanary ctx).1 = ⟨false, Retry.default, none⟩) ∧
    (∀ ctx : ExecutorContext,
      (doCanary ctx).1.done = true →
      (modifyTraffic ctx TrafficOp.forkStable).1.1 = true ∧
      canaryLoopChanged (doCanaryLoop ctx (canaryPatch ctx) ctx.canary.targets) =
        some false ∧
      canaryLoopReady (doCanaryLoop ctx (canaryPatch ctx) ctx.canary.targets) =
        some true ∧
      (modifyTraffic ctx TrafficOp.forkCanary).1.1 = true ∧
      (doCanary ctx).1 = ⟨true, Retry.immediately, none⟩) := by
  refine ⟨?_, ?_, ?_, ?_, ?_, ?_⟩
  · intro ctx hprep
    have hdef := modifyTraffic_not_done_default ctx TrafficOp.forkStable hprep
    unfold doCanary
    simp only [hprep, Bool.false_eq_true, if_false]
    constructor
    · simp [hdef]
    · exact modifyTraffic_events_all ctx TrafficOp.forkStable _ rfl rfl
  · intro ctx hprep hch
    cases hrec : doCanaryLoop ctx (canaryPatch ctx) ctx.canary.targets with
    | error pr =>
      rw [hrec] at hch
      simp [canaryLoopChanged] at hch
    | ok triple =>
      rcases triple with ⟨ch, ⟨css, tr⟩⟩
      rw [hrec] at hch
      simp only [canaryLoopChanged, Option.some.injEq] at hch
      subst hch
      unfold doCanary
      simp only [hprep, if_true, hrec]
      constructor
      · trivial
      · rw [List.all_append]
        apply Bool.and_eq_true_iff.mpr
        constructor
        · exact modifyTraffic_events_all ctx TrafficOp.forkStable _ rfl rfl
        · have := doCanaryLoop_events_all ctx (canaryPatch ctx) ctx.canary.targets
            (fun e => !(e.isGetCanaryInfo || e.isTrafficCall TrafficOp.forkCanary))
            (fun c n p => rfl)
          rw [hrec] at this
          exact this
  · intro ctx hprep hch hready
    cases hrec : doCanaryLoop ctx (canaryPatch ctx) ctx.canary.targets with
    | error pr =>
      rw [hrec] at hch
      simp [canaryLoopChanged] at hch
    | ok triple =>
      rcases triple with ⟨ch, ⟨css, tr⟩⟩
      rw [hrec] at hch hready
      simp only [canaryLoopChanged, Option.some.injEq] at hch
      simp only [canaryLoopReady, Option.some.injEq] at hready
      subst hch
      unfold doCanary
      simp only [hprep, if_true, hrec, hready, Bool.false_eq_true, if_false]
  · intro ctx hprep hch hready hfork
    cases hrec : doCanaryLoop ctx (canaryPatch ctx) ctx.canary.targets with
    | error pr =>
      rw [hrec] at hch
      simp [canaryLoopChanged] at hch
    | ok triple =>
      rcases triple with ⟨ch, ⟨css, tr⟩⟩
      rw [hrec] at hch hready
      simp only [canaryLoopChanged, Option.some.injEq] at hch
      simp only [canaryLoopReady, Option.some.injEq] at hready
      subst hch
      unfold doCanary
      simp only [hprep, if_true, hrec, hready, hfork, Bool.false_eq_true, if_false]
  · intro ctx hprep hch hready hfork
    have hdef := modifyTraffic_not_done_default ctx TrafficOp.forkCanary hfork
    cases hrec : doCanaryLoop ctx (canaryPatch ctx) ctx.canary.targets with
    | error pr =>
      rw [hrec] at hch
      simp [canaryLoopChanged] at hch
    | ok triple =>
      rcases triple with ⟨ch, ⟨css, tr⟩⟩
      rw [hrec] at hch hready
      simp only [canaryLoopChanged, Option.some.injEq] at hch
      simp only [canaryLoopReady, Option.some.injEq] at hready
      subst hch
      unfold doCanary
      simp only [hprep, if_true, hrec, hready, hfork, Bool.false_eq_true, if_false]
      simp [hdef]
  · intro ctx hdone
    cases hprep : (modifyTraffic ctx TrafficOp.forkStable).1.1 with
    | false =>
      unfold doCanary at hdone
      simp only [hprep, Bool.false_eq_true, if_false] at hdone
    | true =>
      cases hrec : doCanaryLoop ctx (canaryPatch ctx) ctx.canary.targets with
      | error pr =>
        exfalso
        cases pr with
        | mk r tr =>
          have h1 := doCanaryLoop_error_done ctx (canaryPatch ctx)
            ctx.canary.targets r tr hrec
          unfold doCanary at hdone
          simp only [hprep, if_true, hrec] at hdone
          rw [h1] at hdone
          simp at hdone
      | ok triple =>
        rcases triple with ⟨ch, ⟨css, tr⟩⟩
        cases ch with
        | true =>
          unfold doCanary at hdone
          simp only [hprep, if_true, hrec, Bool.false_eq_true, if_false] at hdone
        | false =>
          cases hready : (checkReadyLoop css).1 with
          | false =>
            unfold doCanary at hdone
            simp only [hprep, if_true, hrec, hready, Bool.false_eq_true,
              if_false] at hdone
          | true =>
            cases hfork : (modifyTraffic ctx TrafficOp.forkCanary).1.1 with
            | false =>
              unfold doCanary at hdone
              simp only [hprep, if_true, hrec, hready, hfork, Bool.false_eq_true,
                if_false] at hdone
            | true =>
              refine ⟨rfl, ?_, ?_, rfl, ?_⟩
              · rfl
              · simp [canaryLoopReady, hready]
              · unfold doCanary
                simp only [hprep, if_true, hrec, hready, hfork,
                  Bool.false_eq_true, if_false]

/-- For a machine whose every registered transition either ends the chain
(empty next state) or moves strictly forward along `stateIdx`, `run` never
moves the persisted state backwards, whatever the handlers report. -/
theorem run_state_monotone (m : StepStateMachine)
    (hm : ∀ t ∈ m.transitions, t.next = "" ∨ stateIdx t.current < stateIdx t.next) :
    ∀ (fuel : Nat) (ctx : ExecutorContext) (s : String),
      stateIdx s ≤ stateIdx (m.run ctx fuel s).2 := by
  intro fuel
  induction fuel with
  | zero =>
    intro ctx s
    simp [StepStateMachine.run]
  | succ n ih =>
    intro ctx s
    unfold StepStateMachine.run
    cases hf : m.findTransition s with
    | none => simp
    | some t =>
      have hf2 : m.transitions.find? (fun t => t.current = s) = some t := hf
      have hmem : t ∈ m.transitions := List.mem_of_find?_eq_some hf2
      have hcur : t.current = s := by
        have h2 := List.find?_some hf2
        simpa using h2
      cases herr : (t.handler ctx).err with
      | some e => simp [herr]
      | none =>
        simp only [herr]
        cases hdone : (t.handler ctx).done with
        | false => simp [hdone]
        | true =>
          simp only [hdone, if_true]
          by_cases hnext : t.next = ""
          · rw [if_pos hnext]
          · rw [if_neg hnext]
            have hlt : stateIdx t.current < stateIdx t.next := by
              rcases hm t hmem with h | h
              · exact absurd h hnext
              · exact h
            by_cases hret : (t.handler ctx).retry = Retry.immediately
            · rw [if_pos hret]
              calc stateIdx s = stateIdx t.current := by rw [hcur]
                _ ≤ stateIdx t.next := le_of_lt hlt
                _ ≤ stateIdx (m.run ctx n t.next).2 := ih ctx t.next
            · rw [if_neg hret]
              calc stateIdx s = stateIdx t.current := by rw [hcur]
                _ ≤ stateIdx t.next := le_of_lt hlt

/-- C2. The canary executor's transition graph is fixed at construction to
exactly the chain Pending→PreCanaryStepHook (doInit), PreCanaryStepHook→
Running (doPreStepHook), Running→PostCanaryStepHook (doCanary),
PostCanaryStepHook→ResourceRecycling (doPostStepHook), ResourceRecycling→
Succeeded (doRecycle) and Succeeded→"" (the always-done no-op); the
machine's `run` only ever moves the state forward along this chain, and
from `Succeeded` every call returns done-immediately with the state still
`Succeeded`, independent of the context — no earlier handler can be
re-invoked. -/
theorem canary_transition_graph_spec :
    newCanaryExecutor.transitions = [
      ⟨StepPending, StepPreCanaryStepHook, doInitH⟩,
      ⟨StepPreCanaryStepHook, StepRunning, doPreStepHook⟩,
      ⟨StepRunning, StepPostCanaryStepHook, doCanaryH⟩,
      ⟨StepPostCanaryStepHook, StepResourceRecycling, doPostStepHookH⟩,
      ⟨StepResourceRecycling, StepSucceeded, doRecycleH⟩,
      ⟨StepSucceeded, "", skipStep⟩] ∧
    (∀ (ctx : ExecutorContext) (fuel : Nat) (s : String),
      stateIdx s ≤ stateIdx (newCanaryExecutor.run ctx fuel s).2) ∧
    (∀ (ctx : ExecutorContext) (fuel : Nat),
      newCanaryExecutor.run ctx (fuel + 1) StepSucceeded =
        ((true, Retry.immediately, none), StepSucceeded)) := by
  have hg : newCanaryExecutor.transitions = [
      ⟨StepPending, StepPreCanaryStepHook, doInitH⟩,
      ⟨StepPreCanaryStepHook, StepRunning, doPreStepHook⟩,
      ⟨StepRunning, StepPostCanaryStepHook, doCanaryH⟩,
      ⟨StepPostCanaryStepHook, StepResourceRecycling, doPostStepHookH⟩,
      ⟨StepResourceRecycling, StepSucceeded, doRecycleH⟩,
      ⟨StepSucceeded, "", skipStep⟩] := rfl
  refine ⟨hg, ?_, ?_⟩
  · intro ctx fuel s
    apply run_state_monotone
    intro t ht
    rw [hg] at ht
    simp only [List.mem_cons, List.not_mem_nil, or_false] at ht
    rcases ht with rfl | rfl | rfl | rfl | rfl | rfl
    · right
      decide
    · right
      decide
    · right
      decide
    · right
      decide
    · right
      decide
    · left
      rfl
  · intro ctx fuel
    rfl

/-- Spec Example 1, first call: two canary targets whose `CreateOrUpdate`
both return `created` make `doCanary` report `(false, retryDefault, nil)`,
with no readiness check and no canary-traffic fork. -/
theorem example1_first_call :
    (doCanary ctxFirstCall).1 = ⟨false, Retry.default, none⟩ ∧
    ((doCanary ctxFirstCall).2.1.all fun e =>
      !(e.isGetCanaryInfo || e.isTrafficCall TrafficOp.forkCanary)) = true := by
  decide

/-- Spec Example 1, second call: both targets now no-ops and ready, so
`doCanary` reports `(true, retryImmediately, nil)`. -/
theorem example1_second_call :
    (doCanary ctxSecondCall).1 = ⟨true, Retry.immediately, none⟩ := by
  decide

/-- Spec Example 2: with the second of two targets missing from the
workload registry, `doInit` returns the structured fatal error and the
trace shows the first target's `Initialize` already ran — and nothing
else. -/
theorem example2_missing_second_target :
    (doInit ctxMissingSecond).1 = ⟨false, Retry.stop,
      some (newDoCanaryError ReasonWorkloadInterfaceNotExist
        "the workload (c1/w2) does not exists")⟩ ∧
    (doInit ctxMissingSecond).2 = [.initializeCall "c1" "w1"] := by
  decide

/-- Spec Example 3: while `RevertCanary` reports a change, `doRecycle`
returns `(false, retryDefault, nil)` and makes no `Delete` call. -/
theorem example3_revert_still_converging :
    (doRecycle ctxRevertConverging).1 = ⟨false, Retry.default, none⟩ ∧
    ((doRecycle ctxRevertConverging).2.all fun e => !(e.isDelete)) = true := by
  decide

/-- While `ForkStable` reports a change, `doCanary` returns
`(false, retryDefault, nil)` without touching any workload. -/
theorem example_fork_still_converging :
    (doCanary ctxForkConverging).1 = ⟨false, Retry.default, none⟩ ∧
    ((doCanary ctxForkConverging).2.1.all fun e =>
      !(e.touchesWorkload || e.isGetCanaryInfo)) = true := by
  decide

/-- Spec Example 4 analogue: the webhook reporting done makes `Do`'s
post-hook handler set the pause signal exactly once, observably after the
call. -/
theorem example4_pause_once :
    (doPostStepHook ctxBase).2.pauseCount = 1 ∧ ctxBase.pauseCount = 0 := by
  decide
